import Mathlib

/-!
Verification of the distributed request throttle (`enforce_rate_limit` in
`src/api/review.py`) against its natural-language specification.

The persisted Firestore document `admin/rate_limiter` holds three fields,
each of which may be missing (the code reads them with `dict.get` and a
default).  We model the document as a record of `Option` fields, timestamps
as rationals (Python `time.time()` returns a real number) and the counter as
an integer.  The transactional closure `_transaction` is embedded as a pure
function from the optional document and the current time to the new document
and the returned sleep duration.

Spec vocabulary mapping: `lastAdmitTime` is `last_request_processed_timestamp`,
`windowCount` is `total_request_processed_in_this_minute`, and `windowStart`
is `update_data_at_timestamp`.
-/

set_option autoImplicit false

namespace Throttle

/-- The persisted rate-limiter document.  Every field is optional because the
source reads each with `data.get(key, default)`. -/
structure RateDoc where
  last_request_processed_timestamp : Option ℚ
  total_request_processed_in_this_minute : Option ℤ
  update_data_at_timestamp : Option ℚ
  deriving Repr, DecidableEq

/-- Document with all three fields present: the shape every write of
`_transaction` other than the dense under-limit update produces. -/
def mkDoc (l : ℚ) (c : ℤ) (u : ℚ) : RateDoc :=
  ⟨some l, some c, some u⟩

/-- The body of the `@firestore.transactional` closure `_transaction` in
`enforce_rate_limit` (src/api/review.py lines 121-161): given the current
snapshot (`none` when the document does not exist) and `current_time`,
returns the document written and the sleep duration returned. -/
def _transaction : Option RateDoc → ℚ → RateDoc × ℚ
  | none, current_time =>
      (mkDoc current_time 1 current_time, 0)
  | some data, current_time =>
      let last_req := data.last_request_processed_timestamp.getD 0
      let total_req := data.total_request_processed_in_this_minute.getD 0
      let update_at := data.update_data_at_timestamp.getD current_time
      if current_time - last_req < 6 then
        if total_req > 10 then
          let sleep_duration := max 0 (60 - (current_time - update_at))
          (mkDoc (current_time + sleep_duration) 1 (current_time + sleep_duration),
            sleep_duration)
        else
          ({ data with
              last_request_processed_timestamp := some current_time,
              total_request_processed_in_this_minute := some (total_req + 1) }, 0)
      else
        let new_total : ℤ := if current_time - update_at ≥ 60 then 1 else total_req + 1
        let new_ts : ℚ := if current_time - update_at ≥ 60 then current_time else update_at
        (mkDoc current_time new_total new_ts, 0)

/-- The coordination backend as `enforce_rate_limit` sees it: absent
(`get_firebase_db` returned `None`), failing (the transaction raises), or
working with the given current document. -/
inductive FirestoreDB where
  | noDb : FirestoreDB
  | txnFailure : Option RateDoc → FirestoreDB
  | ok : Option RateDoc → FirestoreDB
  deriving Repr, DecidableEq

/-- `enforce_rate_limit(db)` (src/api/review.py lines 113-167): returns the
backend state afterwards and the number of seconds to wait.  `if not db:
return 0` gives the `noDb` case; the `except` clause returning 0 gives the
`txnFailure` case. -/
def enforce_rate_limit : FirestoreDB → ℚ → FirestoreDB × ℚ
  | .noDb, _ => (.noDb, 0)
  | .txnFailure s, _ => (.txnFailure s, 0)
  | .ok s, current_time =>
      let r := _transaction s current_time
      (.ok (some r.1), r.2)

/-- Run a sequence of transactional calls at the given times, collecting the
returned sleep durations. -/
def runTx : Option RateDoc → List ℚ → Option RateDoc × List ℚ
  | s, [] => (s, [])
  | s, t :: ts =>
      let r := _transaction s t
      let rest := runTx (some r.1) ts
      (rest.1, r.2 :: rest.2)

/-- Each call time is at least 6 seconds after the previous admission time,
starting from admission time `l`. -/
def sparseFromB : ℚ → List ℚ → Bool
  | _, [] => true
  | l, t :: ts => decide (l + 6 ≤ t) && sparseFromB t ts

/-- Each call time is strictly less than 6 seconds after the previous call
time, starting from previous time `l`. -/
def denseFromB : ℚ → List ℚ → Bool
  | _, [] => true
  | l, t :: ts => decide (t - l < 6) && denseFromB t ts

/-- Consecutive calls in the list are spaced less than 6 seconds apart. -/
def denseChainB : List ℚ → Bool
  | [] => true
  | t :: ts => denseFromB t ts

/-- Every call in the sequence happens no earlier than the stored
`last_request_processed_timestamp` at the moment of the call (true wall-clock
behaviour when no caller re-enters during a pending deferral). -/
def callsAfterLastB : Option RateDoc → List ℚ → Bool
  | _, [] => true
  | s, t :: ts =>
      (match s with
        | none => true
        | some d => decide (d.last_request_processed_timestamp.getD 0 ≤ t))
      && callsAfterLastB (some ((_transaction s t).1)) ts

/-- Shape and ordering invariant: all three fields are present and the stored
window start is at most the stored admission timestamp. -/
def DocGood (d : RateDoc) : Prop :=
  ∃ l c u, d = mkDoc l c u ∧ u ≤ l

/-- Lift of `DocGood` to an optional document; the absent document is good. -/
def GoodState : Option RateDoc → Prop
  | none => True
  | some d => DocGood d

/-! ### Branch characterizations of the transactional body -/

lemma tx_dense_under (l : ℚ) (c : ℤ) (u : ℚ) (t : ℚ)
    (h1 : t - l < 6) (h2 : c ≤ 10) :
    _transaction (some (mkDoc l c u)) t = (mkDoc t (c + 1) u, 0) := by
  simp only [_transaction, mkDoc, Option.getD_some]
  rw [if_pos h1, if_neg (not_lt.mpr h2)]

lemma tx_dense_over (l : ℚ) (c : ℤ) (u : ℚ) (t : ℚ)
    (h1 : t - l < 6) (h2 : 10 < c) :
    _transaction (some (mkDoc l c u)) t =
      (mkDoc (t + max 0 (60 - (t - u))) 1 (t + max 0 (60 - (t - u))),
        max 0 (60 - (t - u))) := by
  simp only [_transaction, mkDoc, Option.getD_some]
  rw [if_pos h1, if_pos h2]

lemma tx_sparse_expire (l : ℚ) (c : ℤ) (u : ℚ) (t : ℚ)
    (h1 : 6 ≤ t - l) (h2 : 60 ≤ t - u) :
    _transaction (some (mkDoc l c u)) t = (mkDoc t 1 t, 0) := by
  simp only [_transaction, mkDoc, Option.getD_some]
  rw [if_neg (not_lt.mpr h1), if_pos h2, if_pos h2]

lemma tx_sparse_cont (l : ℚ) (c : ℤ) (u : ℚ) (t : ℚ)
    (h1 : 6 ≤ t - l) (h2 : t - u < 60) :
    _transaction (some (mkDoc l c u)) t = (mkDoc t (c + 1) u, 0) := by
  simp only [_transaction, mkDoc, Option.getD_some]
  rw [if_neg (not_lt.mpr h1), if_neg (not_le.mpr h2), if_neg (not_le.mpr h2)]

/-! ### Runs of calls -/

lemma runTx_sparse (ts : List ℚ) : ∀ (l : ℚ) (c : ℤ) (u : ℚ),
    sparseFromB l ts = true →
    (runTx (some (mkDoc l c u)) ts).2 = List.replicate ts.length 0 := by
  induction ts with
  | nil => intro l c u _; rfl
  | cons t ts ih =>
      intro l c u h
      simp only [sparseFromB, Bool.and_eq_true, decide_eq_true_eq] at h
      obtain ⟨h1, h2⟩ := h
      rcases le_or_lt 60 (t - u) with hw | hw
      · simp only [runTx, tx_sparse_expire l c u t (by linarith) hw]
        simp [ih t 1 t h2, List.replicate_succ]
      · simp only [runTx, tx_sparse_cont l c u t (by linarith) hw]
        simp [ih t (c + 1) u h2, List.replicate_succ]

lemma runTx_dense (ts : List ℚ) : ∀ (l : ℚ) (c : ℤ) (u : ℚ),
    denseFromB l ts = true → 1 ≤ c → c + ts.length ≤ 10 →
    runTx (some (mkDoc l c u)) ts =
      (some (mkDoc (ts.getLastD l) (c + ts.length) u), List.replicate ts.length 0) := by
  induction ts with
  | nil => intro l c u _ _ _; simp [runTx]
  | cons t ts ih =>
      intro l c u h hc hlen
      simp only [denseFromB, Bool.and_eq_true, decide_eq_true_eq] at h
      obtain ⟨h1, h2⟩ := h
      simp only [List.length_cons] at hlen
      have hcle : c ≤ 10 := by
        have : (0 : ℤ) ≤ ts.length := Int.ofNat_nonneg ts.length
        push_cast at hlen
        omega
      simp only [runTx, tx_dense_under l c u t h1 hcle]
      rw [ih t (c + 1) u h2 (by omega) (by push_cast at hlen ⊢; omega)]
      have hcast : (c + 1) + (ts.length : ℤ) = c + ((ts.length + 1 : ℕ) : ℤ) := by
        push_cast
        ring
      simp only [List.getLastD_cons, List.length_cons, List.replicate_succ, hcast]

/-! ### The windowStart-vs-lastAdmitTime invariant -/

lemma step_good (s : Option RateDoc) (t : ℚ) (hs : GoodState s)
    (ht : ∀ d, s = some d → d.last_request_processed_timestamp.getD 0 ≤ t) :
    DocGood ((_transaction s t).1) := by
  cases s with
  | none => exact ⟨t, 1, t, rfl, le_refl t⟩
  | some d =>
      obtain ⟨l, c, u, rfl, hul⟩ := hs
      have hlt : l ≤ t := by simpa [mkDoc] using ht (mkDoc l c u) rfl
      rcases lt_or_le (t - l) 6 with hd | hd
      · rcases le_or_lt c 10 with hc | hc
        · rw [tx_dense_under l c u t hd hc]
          exact ⟨t, c + 1, u, rfl, le_trans hul hlt⟩
        · rw [tx_dense_over l c u t hd hc]
          exact ⟨_, _, _, rfl, le_refl _⟩
      · rcases le_or_lt 60 (t - u) with hw | hw
        · rw [tx_sparse_expire l c u t hd hw]
          exact ⟨t, 1, t, rfl, le_refl t⟩
        · rw [tx_sparse_cont l c u t hd hw]
          exact ⟨t, c + 1, u, rfl, le_trans hul hlt⟩

lemma runTx_good (ts : List ℚ) : ∀ s : Option RateDoc, GoodState s →
    callsAfterLastB s ts = true → GoodState ((runTx s ts).1) := by
  induction ts with
  | nil => intro s hs _; exact hs
  | cons t ts ih =>
      intro s hs h
      simp only [callsAfterLastB, Bool.and_eq_true] at h
      obtain ⟨h1, h2⟩ := h
      have ht : ∀ d, s = some d → d.last_request_processed_timestamp.getD 0 ≤ t := by
        intro d hd
        subst hd
        simpa using h1
      simp only [runTx]
      exact ih (some ((_transaction s t).1)) (step_good s t hs ht) h2

/-! ### Claims -/

/-- Claim C1, general rule (holds): a call made less than 6 seconds after the
last admitted request against a record whose count strictly exceeds 10 returns
`max 0 (60 - sinceWindowStart)` and rewrites the record as a fresh window at
`now + delay` with count 1. -/
theorem c1_burst_overflow_rule (l : ℚ) (c : ℤ) (u : ℚ) (now : ℚ)
    (hdense : now - l < 6) (hover : 10 < c) :
    _transaction (some (mkDoc l c u)) now =
      (mkDoc (now + max 0 (60 - (now - u))) 1 (now + max 0 (60 - (now - u))),
        max 0 (60 - (now - u))) :=
  tx_dense_over l c u now hdense hover

/-- Witness for C1's general rule at `l = 10`, `c = 11`, `u = 0`, `now = 11`. -/
theorem c1_burst_overflow_rule_witness :
    ((11 : ℚ) - 10 < 6) ∧ ((10 : ℤ) < 11) ∧
    _transaction (some (mkDoc 10 11 0)) 11 =
      (mkDoc (11 + max 0 (60 - ((11 : ℚ) - 0))) 1 (11 + max 0 (60 - ((11 : ℚ) - 0))),
        max 0 (60 - ((11 : ℚ) - 0))) :=
  ⟨by norm_num, by norm_num,
    c1_burst_overflow_rule 10 11 0 11 (by norm_num) (by norm_num)⟩

/-- Counterexample to C1's instance: eleven calls at times 0..10 (all gaps
less than 6) starting from an absent record.  The 11th call sees a stored
count of 10, which does not exceed 10, so it is admitted with delay 0 and the
count becomes 11 — not the claimed `delay = max 0 (60 - (10 - 0)) = 50` with
count reset to 1. -/
theorem c1_eleventh_dense_call_admitted :
    (runTx none [0, 1, 2, 3, 4, 5, 6, 7, 8, 9, 10]).2 = List.replicate 11 0 ∧
    (runTx none [0, 1, 2, 3, 4, 5, 6, 7, 8, 9, 10]).1 = some (mkDoc 10 11 0) ∧
    ¬ ((0 : ℚ) = max 0 (60 - ((10 : ℚ) - 0))) := by
  norm_num [runTx, _transaction, mkDoc, List.replicate]

/-- Claim C2: with the store absent (`db` falsy) or the atomic update failing
(the `except` path), `enforce_rate_limit` returns delay 0 and leaves the
backend untouched, for every prior record state and call time. -/
theorem c2_fail_open (s : Option RateDoc) (now : ℚ) :
    enforce_rate_limit .noDb now = (.noDb, 0) ∧
    enforce_rate_limit (.txnFailure s) now = (.txnFailure s, 0) :=
  ⟨rfl, rfl⟩

/-- Claim C3, amended (holds): starting from the absent record, if every call
arrives no earlier than the stored `last_request_processed_timestamp`, then
after any such sequence the stored window start is at most the stored
admission timestamp. -/
theorem c3_invariant_under_timely_calls (ts : List ℚ)
    (h : callsAfterLastB none ts = true) :
    ∀ d, (runTx none ts).1 = some d →
      d.update_data_at_timestamp.getD 0 ≤ d.last_request_processed_timestamp.getD 0 := by
  intro d hd
  have hg := runTx_good ts none trivial h
  rw [hd] at hg
  obtain ⟨l, c, u, rfl, hul⟩ := hg
  simpa [mkDoc] using hul

/-- Witness for the amended C3 on the two-call trace `[0, 1]`, whose final
document is `mkDoc 1 2 0`. -/
theorem c3_invariant_under_timely_calls_witness :
    callsAfterLastB none [0, 1] = true ∧
    (mkDoc 1 2 0).update_data_at_timestamp.getD 0 ≤
      (mkDoc 1 2 0).last_request_processed_timestamp.getD 0 :=
  ⟨by norm_num [callsAfterLastB, _transaction, mkDoc],
    c3_invariant_under_timely_calls [0, 1]
      (by norm_num [callsAfterLastB, _transaction, mkDoc])
      (mkDoc 1 2 0) (by norm_num [runTx, _transaction, mkDoc])⟩

/-- Counterexample to C3 as stated: the nondecreasing call-time sequence
0..12 is reachable (ten dense admissions, a dense 11th admission, a deferral
at time 11 writing timestamps 60, then a call at time 12 during the pending
deferral).  The final record stores `windowStart = 60` but
`lastAdmitTime = 12`, violating `windowStart ≤ lastAdmitTime`. -/
theorem c3_violation_trace :
    (runTx none [0, 1, 2, 3, 4, 5, 6, 7, 8, 9, 10, 11, 12]).1 =
      some (mkDoc 12 2 60) ∧
    ¬ ((60 : ℚ) ≤ 12) := by
  norm_num [runTx, _transaction, mkDoc]

/-- Claim C4, amended: the returned delay is always non-negative, and it is
at most 60 whenever the stored window start does not lie in the future
(`update_data_at_timestamp ≤ now`, with the record's own default when the
field is missing or the record absent). -/
theorem c4_delay_nonneg_bounded (s : Option RateDoc) (now : ℚ) :
    0 ≤ (_transaction s now).2 ∧
    ((∀ d, s = some d → d.update_data_at_timestamp.getD now ≤ now) →
      (_transaction s now).2 ≤ 60) := by
  cases s with
  | none =>
      refine ⟨by norm_num [_transaction, mkDoc], fun _ => ?_⟩
      norm_num [_transaction, mkDoc]
  | some d =>
      constructor
      · simp only [_transaction]
        split_ifs with h1 h2 h3
        · exact le_max_left 0 _
        · exact le_refl 0
        · exact le_refl 0
        · exact le_refl 0
      · intro h
        have hud : d.update_data_at_timestamp.getD now ≤ now := h d rfl
        simp only [_transaction]
        split_ifs with h1 h2 h3
        · exact max_le (by norm_num) (by linarith)
        · norm_num
        · norm_num
        · norm_num

/-- Witness for C4: at the record `mkDoc 21 11 0` and `now = 22` both
conclusions hold (the delay is `max 0 (60 - 22) = 38`). -/
theorem c4_delay_nonneg_bounded_witness :
    0 ≤ (_transaction (some (mkDoc 21 11 0)) 22).2 ∧
    (_transaction (some (mkDoc 21 11 0)) 22).2 ≤ 60 :=
  ⟨(c4_delay_nonneg_bounded (some (mkDoc 21 11 0)) 22).1,
    (c4_delay_nonneg_bounded (some (mkDoc 21 11 0)) 22).2
      (fun d hd => by
        rw [← Option.some_inj.mp hd]
        norm_num [mkDoc])⟩

/-- Counterexample to C4 as stated: against the record with `lastAdmitTime =
21`, `windowCount = 11`, `windowStart = 60` (reachable after a deferral wrote
a future window start), a call at `now = 22` is a burst overflow and returns
`max 0 (60 - (22 - 60)) = 98 > 60`. -/
theorem c4_delay_above_window :
    _transaction (some (mkDoc 21 11 60)) 22 = (mkDoc 120 1 120, 98) ∧
    ¬ ((98 : ℚ) ≤ 60) := by
  norm_num [_transaction, mkDoc]

/-- Claim C5: from any fully-populated record and any window count, a
sequence of calls each at least 6 seconds after the previous admission time
returns delay 0 at every call. -/
theorem c5_sparse_never_waits (l : ℚ) (c : ℤ) (u : ℚ) (ts : List ℚ)
    (h : sparseFromB l ts = true) :
    (runTx (some (mkDoc l c u)) ts).2 = List.replicate ts.length 0 :=
  runTx_sparse ts l c u h

/-- Witness for C5: two sparse calls at times 6 and 12 against a record whose
count 20 is far above the burst limit still return delay 0 each. -/
theorem c5_sparse_never_waits_witness :
    sparseFromB 0 [6, 12] = true ∧
    (runTx (some (mkDoc 0 20 0)) [6, 12]).2 = List.replicate 2 0 :=
  ⟨by norm_num [sparseFromB],
    c5_sparse_never_waits 0 20 0 [6, 12] (by norm_num [sparseFromB])⟩

/-- Claim C6: any ten calls with consecutive spacing under 6 seconds starting
from the absent record all return delay 0, and the final record stores a
window count of 10. -/
theorem c6_dense_burst_to_limit (ts : List ℚ) (hlen : ts.length = 10)
    (hch : denseChainB ts = true) :
    (runTx none ts).2 = List.replicate 10 0 ∧
    ∃ d, (runTx none ts).1 = some d ∧
      d.total_request_processed_in_this_minute = some 10 := by
  cases ts with
  | nil => simp at hlen
  | cons t ts =>
      simp only [denseChainB] at hch
      simp only [List.length_cons] at hlen
      have hlen9 : ts.length = 9 := by omega
      simp only [runTx]
      have h0 : _transaction none t = (mkDoc t 1 t, 0) := rfl
      rw [h0, runTx_dense ts t 1 t hch (le_refl 1) (by rw [hlen9]; norm_num)]
      refine ⟨?_, _, rfl, ?_⟩
      · rw [hlen9]
        rfl
      · rw [hlen9]
        norm_num [mkDoc]

/-- Witness for C6 at call times 0..9. -/
theorem c6_dense_burst_to_limit_witness :
    ([0, 1, 2, 3, 4, 5, 6, 7, 8, 9] : List ℚ).length = 10 ∧
    denseChainB [0, 1, 2, 3, 4, 5, 6, 7, 8, 9] = true ∧
    ((runTx none [0, 1, 2, 3, 4, 5, 6, 7, 8, 9]).2 = List.replicate 10 0 ∧
      ∃ d, (runTx none [0, 1, 2, 3, 4, 5, 6, 7, 8, 9]).1 = some d ∧
        d.total_request_processed_in_this_minute = some 10) :=
  ⟨rfl, by norm_num [denseChainB, denseFromB],
    c6_dense_burst_to_limit [0, 1, 2, 3, 4, 5, 6, 7, 8, 9] rfl
      (by norm_num [denseChainB, denseFromB])⟩

/-- Claim C7: a call at least 60 seconds after the stored window start and at
least 6 seconds after the stored admission time returns delay 0 and resets
the record to a fresh window at `now` with count 1. -/
theorem c7_window_expiry_reset (l : ℚ) (c : ℤ) (u : ℚ) (now : ℚ)
    (hgap : 6 ≤ now - l) (hwin : 60 ≤ now - u) :
    _transaction (some (mkDoc l c u)) now = (mkDoc now 1 now, 0) :=
  tx_sparse_expire l c u now hgap hwin

/-- Witness for C7 at `l = 0`, `c = 7`, `u = 0`, `now = 60`. -/
theorem c7_window_expiry_reset_witness :
    (6 : ℚ) ≤ 60 - 0 ∧ (60 : ℚ) ≤ 60 - 0 ∧
    _transaction (some (mkDoc 0 7 0)) 60 = (mkDoc 60 1 60, 0) :=
  ⟨by norm_num, by norm_num,
    c7_window_expiry_reset 0 7 0 60 (by norm_num) (by norm_num)⟩

/-- Claim C8: a call against the absent record creates it with
`lastAdmitTime = windowStart = now` and count 1, and returns delay 0. -/
theorem c8_first_call_creates (now : ℚ) :
    enforce_rate_limit (.ok none) now = (.ok (some (mkDoc now 1 now)), 0) :=
  rfl

/-- Claim C9, amended (holds in the all-fields-missing case): when every
field is missing and `now ≥ 6`, the defaults (`lastAdmitTime = 0`,
`windowCount = 0`, `windowStart = now`) route the call through the
window-continuation branch, which writes a fresh window `mkDoc now 1 now`
and returns delay 0. -/
theorem c9_all_fields_missing_reinit (now : ℚ) (h : 6 ≤ now) :
    _transaction (some ⟨none, none, none⟩) now = (mkDoc now 1 now, 0) := by
  simp only [_transaction, Option.getD_none]
  rw [if_neg (by linarith : ¬ now - 0 < 6),
    if_neg (by linarith : ¬ now - now ≥ 60), if_neg (by linarith : ¬ now - now ≥ 60)]
  norm_num [mkDoc]

/-- Witness for the amended C9 at `now = 10`. -/
theorem c9_all_fields_missing_reinit_witness :
    (6 : ℚ) ≤ 10 ∧
    _transaction (some ⟨none, none, none⟩) 10 = (mkDoc 10 1 10, 0) :=
  ⟨by norm_num, c9_all_fields_missing_reinit 10 (by norm_num)⟩

/-- Counterexample to C9 as stated: a record missing only `windowCount`
(`⟨some 100, none, some 50⟩`) at `now = 103` is not treated as absent: the
defaulted count 0 routes the dense branch, which keeps the stored
`windowStart = 50` instead of reinitializing it to `now = 103`. -/
theorem c9_partial_missing_keeps_window :
    _transaction (some ⟨some 100, none, some 50⟩) 103 =
      (⟨some 103, some 1, some 50⟩, 0) ∧ (50 : ℚ) ≠ 103 := by
  norm_num [_transaction, mkDoc]

/-- Claim C10: after a deferral stored `lastAdmitTime = windowStart = f` in
the future, a call at `now < f` computes a negative `sinceLast`, is
classified dense, and (count at most 10) is admitted with delay 0, storing
`lastAdmitTime = now` while `windowStart` stays `f`, so the stored window
start strictly exceeds the stored admission time. -/
theorem c10_call_before_deferred_time (f : ℚ) (c : ℤ) (now : ℚ)
    (hearly : now < f) (hunder : c ≤ 10) :
    _transaction (some (mkDoc f c f)) now = (mkDoc now (c + 1) f, 0) ∧
    (mkDoc now (c + 1) f).last_request_processed_timestamp.getD 0 <
      (mkDoc now (c + 1) f).update_data_at_timestamp.getD 0 := by
  constructor
  · exact tx_dense_under f c f now (by linarith) hunder
  · simpa [mkDoc] using hearly

/-- Witness for C10 at `f = 60`, `c = 1`, `now = 12`. -/
theorem c10_call_before_deferred_time_witness :
    (12 : ℚ) < 60 ∧ (1 : ℤ) ≤ 10 ∧
    (_transaction (some (mkDoc 60 1 60)) 12 = (mkDoc 12 2 60, 0) ∧
      (mkDoc 12 2 60).last_request_processed_timestamp.getD 0 <
        (mkDoc 12 2 60).update_data_at_timestamp.getD 0) :=
  ⟨by norm_num, by norm_num,
    c10_call_before_deferred_time 60 1 12 (by norm_num) (by norm_num)⟩

end Throttle
